import Mathlib

/-!
Shallow embedding of the railways-intelligence fetch/aggregation core
(src/Railwayapiservice.js and src/Dataprocessing.js), with theorems
checking the natural-language specification against the code.

JavaScript-level conventions used throughout the embedding:
  - a field that may be `undefined` in a raw row is an `Option String`;
  - JavaScript truthiness of such a field: `none` and `some ""` are falsy;
  - `parseInt(s, 10)` is modelled by `parseIntJs`, returning `JsNum.nan`
    when no leading digit is found (JS yields `NaN` there, not 0);
  - `new Date(s)` is modelled by `parseJsDate`; an unparseable string
    yields `none`, standing for the JS `Invalid Date` object, on which
    `getMonth` / `getFullYear` return `NaN`.
-/

namespace Railways

/-- A JavaScript number restricted to the values the pipeline produces:
either an integer or `NaN`. -/
inductive JsNum where
  | nan : JsNum
  | int (n : Int) : JsNum
deriving DecidableEq, Repr

/-- JS truthiness of a possibly-undefined string field:
`undefined` (`none`) and the empty string are falsy. -/
def truthyS : Option String → Bool
  | none => false
  | some s => !(s == "")

/-- The JS `a || b` operator on two possibly-undefined string fields. -/
def jsOrS (a b : Option String) : Option String :=
  if truthyS a then a else b

/-- Numeric value of a list of decimal digit characters. -/
def jsDigitsVal (ds : List Char) : Nat :=
  ds.foldl (fun a c => a * 10 + (c.toNat - 48)) 0

/-- Whitespace as skipped by JS `parseInt`. -/
def isJsSpace (c : Char) : Bool :=
  c == ' ' || c == '\t' || c == '\n' || c == '\r'

/-- The sign read by JS `parseInt` after leading whitespace. -/
def jsIntSign (s : String) : Int :=
  match s.data.dropWhile isJsSpace with
  | '-' :: _ => -1
  | _ => 1

/-- The decimal digit prefix JS `parseInt` reads after whitespace and an
optional sign. -/
def jsIntDigits (s : String) : List Char :=
  let cs := s.data.dropWhile isJsSpace
  let rest : List Char := match cs with
    | '-' :: r => r
    | '+' :: r => r
    | r => r
  rest.takeWhile Char.isDigit

/-- Model of JS `parseInt(s, 10)`: skip leading whitespace, read an
optional sign, then the longest prefix of decimal digits; if that prefix
is empty the result is `NaN`. -/
def parseIntJs (s : String) : JsNum :=
  let ds := jsIntDigits s
  if ds.isEmpty then JsNum.nan
  else JsNum.int (jsIntSign s * (jsDigitsVal ds : Int))

/-- The JS expression `a || b || 0` followed by `parseInt(-, 10)`, as in
`parseInt(row.indtunit || row.ostgunit || 0, 10)`: when both fields are
falsy the literal `0` is parsed, giving `0`. -/
def unitValue (a b : Option String) : JsNum :=
  match jsOrS a b with
  | some s => if s == "" then JsNum.int 0 else parseIntJs s
  | none => JsNum.int 0

/-- A successfully parsed JS date (only the components the code reads). -/
structure JsDate where
  year : Int
  month0 : Nat
  day : Nat
deriving DecidableEq, Repr

/-- Split a character list at a separator character. -/
def splitCharGo (sep : Char) : List Char → List Char → List String
  | [], cur => [String.mk cur.reverse]
  | c :: cs, cur =>
    if c == sep then String.mk cur.reverse :: splitCharGo sep cs []
    else splitCharGo sep cs (c :: cur)

/-- Split a string on a separator character (model of JS `split`). -/
def splitChar (sep : Char) (s : String) : List String :=
  splitCharGo sep s.data []

/-- Model of the JS `new Date(string)` primitive, restricted to the ISO
form `YYYY-MM-DD`; every other string yields `none`, standing for the JS
`Invalid Date`. -/
def parseJsDate (s : String) : Option JsDate :=
  match splitChar '-' s with
  | [y, m, d] =>
    if y.length == 4 && m.length == 2 && d.length == 2
        && y.data.all Char.isDigit && m.data.all Char.isDigit
        && d.data.all Char.isDigit then
      let mn := jsDigitsVal m.data
      let dn := jsDigitsVal d.data
      if 1 ≤ mn && mn ≤ 12 && 1 ≤ dn && dn ≤ 31 then
        some { year := (jsDigitsVal y.data : Int), month0 := mn - 1, day := dn }
      else none
    else none
  | _ => none

/-- JS `Date.prototype.getMonth`: `NaN` on an Invalid Date. -/
def dateGetMonth : Option JsDate → JsNum
  | some d => JsNum.int (d.month0 : Int)
  | none => JsNum.nan

/-- JS `Date.prototype.getFullYear`: `NaN` on an Invalid Date. -/
def dateGetFullYear : Option JsDate → JsNum
  | some d => JsNum.int d.year
  | none => JsNum.nan

/-- A raw upstream row: the superset of fields the two source schemas
share, each possibly `undefined`. -/
structure RawRow where
  dvsn : Option String := none
  dmnddate : Option String := none
  dmndtime : Option String := none
  time : Option String := none
  indtunit : Option String := none
  ostgunit : Option String := none
  indt8w : Option String := none
  ostg8w : Option String := none
  cmdt : Option String := none
  rakecmdt : Option String := none
  csnr : Option String := none
  cnsg : Option String := none
  dstn : Option String := none
  sttnfrom : Option String := none
  indttype : Option String := none
  pc : Option String := none
deriving DecidableEq, Repr

/-- A canonical record: the raw fields (kept by the JS object spread)
plus the derived fields added in `fetchZoneData`'s map step.
`demandDateObj`: `none` is JS `null`; `some none` is an Invalid Date;
`some (some d)` is a valid date. `month` and `year`: `none` is JS
`null`; `some JsNum.nan` is `NaN`. -/
structure Record where
  dvsn : Option String := none
  dmnddate : Option String := none
  dmndtime : Option String := none
  time : Option String := none
  indtunit : Option String := none
  ostgunit : Option String := none
  indt8w : Option String := none
  ostg8w : Option String := none
  cmdt : Option String := none
  rakecmdt : Option String := none
  csnr : Option String := none
  cnsg : Option String := none
  dstn : Option String := none
  sttnfrom : Option String := none
  indttype : Option String := none
  pc : Option String := none
  qry : Option String := none
  zone : Option String := none
  demandDateObj : Option (Option JsDate) := none
  month : Option JsNum := none
  year : Option JsNum := none
  rakeUnits : JsNum := JsNum.int 0
  rake8w : JsNum := JsNum.int 0
deriving DecidableEq, Repr

/-- The per-row shaping step inside `fetchZoneData` (Railwayapiservice.js
lines 99-111): spread the raw row, tag query type and zone, derive date
fields and numeric unit counts. -/
def processRow (queryType zone : String) (row : RawRow) : Record :=
  { dvsn := row.dvsn
    dmnddate := row.dmnddate
    dmndtime := row.dmndtime
    time := row.time
    indtunit := row.indtunit
    ostgunit := row.ostgunit
    indt8w := row.indt8w
    ostg8w := row.ostg8w
    cmdt := row.cmdt
    rakecmdt := row.rakecmdt
    csnr := row.csnr
    cnsg := row.cnsg
    dstn := row.dstn
    sttnfrom := row.sttnfrom
    indttype := row.indttype
    pc := row.pc
    qry := some queryType
    zone := some zone
    demandDateObj :=
      if truthyS row.dmnddate then some (parseJsDate (row.dmnddate.getD "")) else none
    month :=
      if truthyS row.dmnddate then some (dateGetMonth (parseJsDate (row.dmnddate.getD ""))) else none
    year :=
      if truthyS row.dmnddate then some (dateGetFullYear (parseJsDate (row.dmnddate.getD ""))) else none
    rakeUnits := unitValue row.indtunit row.ostgunit
    rake8w := unitValue row.indt8w row.ostg8w }

/-- The response shaping in `fetchZoneData` (lines 97-111): drop the
upstream TOTAL summary rows, then normalize each remaining row. -/
def processResponse (queryType zone : String) (rows : List RawRow) : List Record :=
  (rows.filter (fun row => !(row.dvsn == some "TOTAL"))).map (processRow queryType zone)

/-! Dataprocessing.js: the aggregation reducers the claims are about. -/

/-- The JS pattern `field || "Unknown"` used by every reducer for its
group key. -/
def fallbackS (v : Option String) (d : String) : String :=
  match v with
  | some s => if s == "" then d else s
  | none => d

/-- The JS pattern `record.rakeUnits || 0` used when summing units:
`NaN` (and 0 itself) is coerced to 0. -/
def jsNumOrZero : JsNum → Int
  | JsNum.nan => 0
  | JsNum.int n => n

/-- Stable insertion of an element into a descending-sorted list: the
element goes after every element with a greater-or-equal key, matching
the stable JS `Array.prototype.sort` with comparator `b.key - a.key`. -/
def insertDescBy {α β : Type} [LinearOrder β] (key : α → β) (x : α) : List α → List α
  | [] => [x]
  | y :: ys => if key y < key x then x :: y :: ys else y :: insertDescBy key x ys

/-- Stable sort by a key, descending (model of the JS sorts in
Dataprocessing.js). -/
def sortDescBy {α β : Type} [LinearOrder β] (key : α → β) : List α → List α
  | [] => []
  | x :: xs => insertDescBy key x (sortDescBy key xs)

/-- A name-keyed bucket with an order count and a unit sum, the common
shape of the consignor / destination / consignee / rake-type maps. -/
structure NameBucket where
  name : String
  orders : Nat := 0
  units : Int := 0
deriving DecidableEq, Repr

/-- Insert-or-update step for a name-keyed `Map` in insertion order:
a fresh key appends a bucket at the end, an existing key bumps its
count and unit sum in place. -/
def bumpName (key : String) (u : Int) (acc : List NameBucket) : List NameBucket :=
  if acc.any (fun b => b.name == key) then
    acc.map (fun b =>
      if b.name == key then { b with orders := b.orders + 1, units := b.units + u } else b)
  else
    acc ++ [{ name := key, orders := 1, units := u }]

/-- Dataprocessing.js `getTopConsignors` (lines 76-96): group by
consignor with fallback Unknown, sort by descending order count, take
the limit, which defaults to 10. -/
def getTopConsignors (data : List Record) (limit : Nat := 10) : List NameBucket :=
  let m := data.foldl
    (fun acc r => bumpName (fallbackS r.csnr "Unknown") (jsNumOrZero r.rakeUnits) acc) []
  (sortDescBy (fun b => b.orders) m).take limit

/-- Dataprocessing.js `getTopDestinations` (lines 101-121): same shape
keyed by destination, limit defaulting to 10. -/
def getTopDestinations (data : List Record) (limit : Nat := 10) : List NameBucket :=
  let m := data.foldl
    (fun acc r => bumpName (fallbackS r.dstn "Unknown") (jsNumOrZero r.rakeUnits) acc) []
  (sortDescBy (fun b => b.orders) m).take limit

/-- Dataprocessing.js `aggregateByRakeType` (lines 149-169): keyed by
indent type, sorted by descending unit sum, limit defaulting to 10. -/
def aggregateByRakeType (data : List Record) (limit : Nat := 10) : List NameBucket :=
  let m := data.foldl
    (fun acc r => bumpName (fallbackS r.indttype "Unknown") (jsNumOrZero r.rakeUnits) acc) []
  (sortDescBy (fun b => b.units) m).take limit

/-- Dataprocessing.js `getConsigneeAnalysis` (lines 204-224): keyed by
consignee, sorted by descending order count, limit defaulting to 10. -/
def getConsigneeAnalysis (data : List Record) (limit : Nat := 10) : List NameBucket :=
  let m := data.foldl
    (fun acc r => bumpName (fallbackS r.cnsg "Unknown") (jsNumOrZero r.rakeUnits) acc) []
  (sortDescBy (fun b => b.orders) m).take limit

/-- A route bucket as built by `getRouteAnalysis`. -/
structure RouteBucket where
  route : String
  origin : String
  destination : String
  shipments : Nat := 0
  units : Int := 0
deriving DecidableEq, Repr

/-- Insert-or-update step for the route map. -/
def bumpRoute (origin destination : String) (u : Int) (acc : List RouteBucket) : List RouteBucket :=
  let route := origin ++ " → " ++ destination
  if acc.any (fun b => b.route == route) then
    acc.map (fun b =>
      if b.route == route then { b with shipments := b.shipments + 1, units := b.units + u } else b)
  else
    acc ++ [{ route := route, origin := origin, destination := destination,
              shipments := 1, units := u }]

/-- Dataprocessing.js `getRouteAnalysis` (lines 350-375): group by the
origin-to-destination route string, sort by descending shipment count,
take the limit, which defaults to 15. -/
def getRouteAnalysis (data : List Record) (limit : Nat := 15) : List RouteBucket :=
  let m := data.foldl
    (fun acc r =>
      bumpRoute (fallbackS r.sttnfrom "Unknown") (fallbackS r.dstn "Unknown")
        (jsNumOrZero r.rakeUnits) acc) []
  (sortDescBy (fun b => b.shipments) m).take limit

/-- An hour bucket of `getTimeDistribution`: `hour` is the numeric Map
key, `label` the `"HH:00"` display string stored in the value. -/
structure HourBucket where
  hour : Nat
  label : String
  orders : Nat
deriving DecidableEq, Repr

/-- The `String(i).padStart(2, "0")` rendering of an hour. -/
def pad2 (i : Nat) : String :=
  if i < 10 then "0" ++ toString i else toString i

/-- The hour label stored in each pre-seeded bucket. -/
def hourLabel (i : Nat) : String := pad2 i ++ ":00"

/-- The hour a record contributes to, if any: the code requires a truthy
`dmndtime || time`, parses the segment before the first colon with
`parseInt`, and keeps the record only when `0 <= hour < 24` (false for
`NaN`). -/
def recordHour (r : Record) : Option Nat :=
  match jsOrS r.dmndtime r.time with
  | none => none
  | some ts =>
    match parseIntJs ((splitChar ':' ts).headD "") with
    | JsNum.nan => none
    | JsNum.int h => if 0 ≤ h ∧ h < 24 then some h.toNat else none

/-- One record's pass of the `getTimeDistribution` loop: bump the
bucket whose hour the record matches, if any. -/
def timeStep (acc : List HourBucket) (r : Record) : List HourBucket :=
  match recordHour r with
  | some h => acc.map (fun b => if b.hour == h then { b with orders := b.orders + 1 } else b)
  | none => acc

/-- The 24 pre-seeded hour buckets (lines 256-261), in insertion order
hour 0 to hour 23. -/
def timeInit : List HourBucket :=
  (List.range 24).map (fun i => { hour := i, label := hourLabel i, orders := 0 })

/-- Dataprocessing.js `getTimeDistribution` (lines 252-275): pre-seed
all 24 hour buckets in ascending order, then bump the matching bucket
for each record carrying a parseable in-range hour. -/
def getTimeDistribution (data : List Record) : List HourBucket :=
  data.foldl timeStep timeInit

/-! Railwayapiservice.js: configuration, retry, cache and the batch
scheduler. The asynchronous JS control flow is embedded as explicit
state passing; one legal completion order (zone order inside each
concurrent wave, the order `Promise.all` reports results in) is
modelled. Two ghost logs are threaded through the state so theorems can
talk about behaviour the JS runtime exhibits but does not reify:
`netlog` records each network fetch actually launched (a cache hit or a
call under an already-aborted signal launches none), and `oklog`
records each fetch that completed without error. -/

/-- API_CONFIG.retryAttempts. -/
def retryAttempts : Nat := 3

/-- API_CONFIG.batchSize as used in `fetchBatchData` (line 138). -/
def batchSize : Nat := 3

/-- API_CONFIG.zones. -/
def configZones : List String :=
  ["CR", "DFCCR", "EC", "ECO", "ER", "KR", "NC", "NE", "NR", "NW", "SC",
   "SE", "SEC", "SR", "SW", "WC", "WR"]

/-- API_CONFIG.queryTypes. -/
def configQueryTypes : List String :=
  ["MATURED_INDENTS", "ODR_RK_OTSG", "DEMAND_REGISTERED"]

/-- The outcome of one network attempt for a partition: the parsed
response rows, or a thrown error message. The fetch environment is a
function from the attempt number (1-based, as in the source) to that
outcome. -/
abbrev Fetcher := String → String → Nat → Except String (List RawRow)

/-- Structural engine for `fetchWithRetry`: `remaining` counts the
retries still allowed (`retryAttempts - attempt` at the entry point). -/
def fetchWithRetryGo (attemptResult : Nat → Except String (List RawRow)) :
    Nat → Nat → Except String (List RawRow)
  | attempt, remaining =>
    match attemptResult attempt with
    | Except.ok d => Except.ok d
    | Except.error e =>
      match remaining with
      | 0 => Except.error e
      | r + 1 => fetchWithRetryGo attemptResult (attempt + 1) r

/-- Railwayapiservice.js `fetchWithRetry` (lines 48-68): try an attempt;
on failure retry while `attempt < retryAttempts`, else rethrow. The
recurrence of the source is recovered in `fetchWithRetry_eq`. -/
def fetchWithRetry (attemptResult : Nat → Except String (List RawRow)) (attempt : Nat) :
    Except String (List RawRow) :=
  fetchWithRetryGo attemptResult attempt (retryAttempts - attempt)

/-- The cache key `zone-queryType` of `fetchZoneData` (line 74). -/
def cacheKey (zone queryType : String) : String := zone ++ "-" ++ queryType

/-- The mutable fields of the service singleton, plus the two ghost
logs described above. The per-batch `AbortController` is modelled by
the abort flag passed into each fetch, so only `isFetching` remains
here as scalar state. -/
structure ServiceState where
  cache : List (String × List Record) := []
  isFetching : Bool := false
  netlog : List String := []
  oklog : List String := []
deriving DecidableEq, Repr

/-- JS `Map.prototype.get` over the insertion-ordered cache. -/
def lookupCache (cache : List (String × List Record)) (k : String) : Option (List Record) :=
  (cache.find? (fun p => p.1 == k)).map (fun p => p.2)

/-- One attempt as seen through the abort signal: once the signal is
aborted every attempt rejects immediately with an AbortError. -/
def effectiveAttempt (fetcher : Fetcher) (zone queryType : String) (aborted : Bool)
    (n : Nat) : Except String (List RawRow) :=
  if aborted then Except.error "AbortError" else fetcher zone queryType n

/-- Railwayapiservice.js `fetchZoneData` (lines 73-124): serve a cache
hit without fetching; otherwise run the retried fetch, and either shape
plus cache the response, or catch the error and resolve with an empty
array. The catch never rethrows, so this function is total and never
signals failure to its caller. -/
def fetchZoneData (fetcher : Fetcher) (aborted : Bool) (zone queryType : String)
    (st : ServiceState) : List Record × ServiceState :=
  let key := cacheKey zone queryType
  match lookupCache st.cache key with
  | some cached => (cached, st)
  | none =>
    let st1 := if aborted then st else { st with netlog := st.netlog ++ [key] }
    match fetchWithRetry (effectiveAttempt fetcher zone queryType aborted) 1 with
    | Except.ok rows =>
      let processedData := processResponse queryType zone rows
      (processedData,
       { st1 with cache := st1.cache ++ [(key, processedData)],
                  oklog := st1.oklog ++ [key] })
    | Except.error _ => ([], st1)

/-- A progress event as built in `fetchBatchData` (lines 150-159 on the
success path, 166-175 on the catch path). -/
structure ProgressEvent where
  completed : Nat
  total : Nat
  percentage : Nat
  zone : String
  queryType : String
  recordsFetched : Option Nat := none
  errorMessage : Option String := none
deriving DecidableEq, Repr

/-- Math.round(completed / total * 100) on a nonempty batch (the
degenerate total of zero never occurs in a progress event of a claim). -/
def roundPct (completed total : Nat) : Nat :=
  if total == 0 then 0 else (200 * completed + total) / (2 * total)

/-- The accumulator of one `fetchBatchData` run: service state, the
completed-request counter, the emitted progress events and the merged
records. -/
structure BatchAcc where
  svc : ServiceState
  completed : Nat := 0
  events : List ProgressEvent := []
  allData : List Record := []
deriving Repr

/-- Whether the shared abort signal is observed as set when a given
number of partitions have completed: the external `cancelFetch` call is
modelled by the index at which it lands between partition completions. -/
def abortedAt (cancelAt : Option Nat) (completed : Nat) : Bool :=
  match cancelAt with
  | some c => c ≤ completed
  | none => false

/-- One partition inside the batch loop (lines 144-179): run
`fetchZoneData`, bump the counter, emit one progress event, append the
records. `fetchZoneData` never rejects, so the catch branch of the
source (lines 163-178), which would attach an error message to the
event, is unreachable: every event takes the success shape. -/
def processPartition (fetcher : Fetcher) (cancelAt : Option Nat) (total : Nat)
    (queryType : String) (acc : BatchAcc) (zone : String) : BatchAcc :=
  let r := fetchZoneData fetcher (abortedAt cancelAt acc.completed) zone queryType acc.svc
  let completed := acc.completed + 1
  let ev : ProgressEvent :=
    { completed := completed, total := total, percentage := roundPct completed total,
      zone := zone, queryType := queryType,
      recordsFetched := some r.1.length, errorMessage := none }
  { svc := r.2, completed := completed,
    events := acc.events ++ [ev], allData := acc.allData ++ r.1 }

/-- The `zones.slice(i, i + batchSize)` grouping of the batch loop
(lines 140-141) with the source's batch size of 3. -/
def chunk3 {α : Type} : List α → List (List α)
  | [] => []
  | [a] => [[a]]
  | [a, b] => [[a, b]]
  | a :: b :: c :: rest => [a, b, c] :: chunk3 rest

/-- The inner `Promise.all` wave (lines 144-181): all zones of the
current group for one query type. -/
def runWave (fetcher : Fetcher) (cancelAt : Option Nat) (total : Nat)
    (queryType : String) (acc : BatchAcc) (zoneBatch : List String) : BatchAcc :=
  zoneBatch.foldl (processPartition fetcher cancelAt total queryType) acc

/-- The `for (const queryType of queryTypes)` loop (line 143): all query
types for one zone group. -/
def runZoneBatch (fetcher : Fetcher) (cancelAt : Option Nat) (total : Nat)
    (queryTypes : List String) (acc : BatchAcc) (zoneBatch : List String) : BatchAcc :=
  queryTypes.foldl (fun a q => runWave fetcher cancelAt total q a zoneBatch) acc

/-- Railwayapiservice.js `fetchBatchData` (lines 129-192): the outer
loop walks zone groups of size 3, the inner loop walks query types, and
each wave fetches the group's zones concurrently; the merged records,
the progress events and the final state are returned. The inter-batch
sleep (line 186) has no observable effect in this embedding. -/
def fetchBatchData (fetcher : Fetcher) (cancelAt : Option Nat)
    (zones queryTypes : List String) (st : ServiceState) :
    List Record × List ProgressEvent × ServiceState :=
  let total := zones.length * queryTypes.length
  let accF := (chunk3 zones).foldl
    (runZoneBatch fetcher cancelAt total queryTypes) { svc := st }
  (accF.allData, accF.events, accF.svc)

/-- The result object of `fetchAllData` / `fetchSelectedZones`. -/
structure FetchResult where
  success : Bool
  data : List Record
  totalRecords : Nat
  errorMessage : Option String := none
deriving Repr

/-- Railwayapiservice.js `fetchSelectedZones` (lines 229-252): run the
batch and wrap it as a success. `fetchBatchData` is total, so the catch
branch returning a failure object is unreachable. -/
def fetchSelectedZones (fetcher : Fetcher) (cancelAt : Option Nat)
    (zones queryTypes : List String) (st : ServiceState) :
    FetchResult × List ProgressEvent × ServiceState :=
  let r := fetchBatchData fetcher cancelAt zones queryTypes st
  ({ success := true, data := r.1, totalRecords := r.1.length }, r.2.1, r.2.2)

/-- Railwayapiservice.js `fetchAllData` (lines 197-224): the batch over
the configured zones and query types, wrapped as a success. -/
def fetchAllData (fetcher : Fetcher) (cancelAt : Option Nat) (st : ServiceState) :
    FetchResult × List ProgressEvent × ServiceState :=
  fetchSelectedZones fetcher cancelAt configZones configQueryTypes st

/-- Railwayapiservice.js `cancelFetch` (lines 257-262): abort the
controller (modelled by the cancel index of the running batch) and
clear the fetching flag; the cache is untouched. -/
def cancelFetch (st : ServiceState) : ServiceState :=
  { st with isFetching := false }

/-- Railwayapiservice.js `clearCache` (lines 267-269). -/
def clearCache (st : ServiceState) : ServiceState :=
  { st with cache := [] }

/-- The schedule of concurrent waves the source's loops produce: zone
groups of 3 in the outer loop, query types in the inner loop, one wave
per group and query type. -/
def scheduleWaves (zones queryTypes : List String) : List (List (String × String)) :=
  ((chunk3 zones).map (fun g => queryTypes.map (fun q => g.map (fun z => (z, q))))).flatten

/-- The flat partition order of the batch. -/
def scheduleFlat (zones queryTypes : List String) : List (String × String) :=
  (scheduleWaves zones queryTypes).flatten

/-- Modelled from the spec: the partition order the claim describes,
with query types as the outer loop and zone groups as the inner loop. -/
def scheduleSpecClaim (zones queryTypes : List String) : List (String × String) :=
  ((queryTypes.map (fun q => (chunk3 zones).map (fun g => g.map (fun z => (z, q))))).flatten).flatten

/-- The fold of the batch over an arbitrary flat partition list; the
nested loops of `fetchBatchData` are proved equal to this fold over
`scheduleFlat`. -/
def runFlat (fetcher : Fetcher) (cancelAt : Option Nat) (total : Nat)
    (parts : List (String × String)) (acc : BatchAcc) : BatchAcc :=
  parts.foldl (fun a p => processPartition fetcher cancelAt total p.2 a p.1) acc

/-- The settled outcome of one partition's retried fetch under a live
signal. -/
def partOutcome (fetcher : Fetcher) (zone queryType : String) :
    Except String (List RawRow) :=
  fetchWithRetry (fetcher zone queryType) 1

/-- The records one partition contributes when fetched with a live
signal and a cold cache: the shaped response on success, the empty
array on a caught failure. -/
def partRecords (fetcher : Fetcher) (zone queryType : String) : List Record :=
  match partOutcome fetcher zone queryType with
  | Except.ok rows => processResponse queryType zone rows
  | Except.error _ => []

/-- Whether an outcome is a success. -/
def isOkE (e : Except String (List RawRow)) : Bool :=
  match e with
  | Except.ok _ => true
  | Except.error _ => false

/-- The records partition number `i` of a cold-cache batch contributes:
nothing once the signal is aborted, its fetched result otherwise. -/
def effRecords (fetcher : Fetcher) (cancelAt : Option Nat) (i : Nat)
    (p : String × String) : List Record :=
  if abortedAt cancelAt i then [] else partRecords fetcher p.1 p.2

/-- The merged records a cold-cache batch accumulates over a partition
list, starting at completed-count `c0`. -/
def runData (fetcher : Fetcher) (cancelAt : Option Nat) :
    Nat → List (String × String) → List Record
  | _, [] => []
  | c0, p :: ps =>
    effRecords fetcher cancelAt c0 p ++ runData fetcher cancelAt (c0 + 1) ps

/-- The progress events a cold-cache batch emits over a partition list,
starting at completed-count `c0`. -/
def runEvents (fetcher : Fetcher) (cancelAt : Option Nat) (total : Nat) :
    Nat → List (String × String) → List ProgressEvent
  | _, [] => []
  | c0, p :: ps =>
    { completed := c0 + 1, total := total, percentage := roundPct (c0 + 1) total,
      zone := p.1, queryType := p.2,
      recordsFetched := some (effRecords fetcher cancelAt c0 p).length,
      errorMessage := none } :: runEvents fetcher cancelAt total (c0 + 1) ps

/-- The cache entries a cold-cache batch adds: one per partition whose
fetch ran with a live signal and succeeded. -/
def runCacheAdds (fetcher : Fetcher) (cancelAt : Option Nat) :
    Nat → List (String × String) → List (String × List Record)
  | _, [] => []
  | c0, p :: ps =>
    (if !abortedAt cancelAt c0 && isOkE (partOutcome fetcher p.1 p.2) then
      [(cacheKey p.1 p.2, partRecords fetcher p.1 p.2)]
     else []) ++ runCacheAdds fetcher cancelAt (c0 + 1) ps

/-- The network fetches a cold-cache batch launches: one per partition
reached with a live signal. -/
def runNetAdds (cancelAt : Option Nat) : Nat → List (String × String) → List String
  | _, [] => []
  | c0, p :: ps =>
    (if abortedAt cancelAt c0 then [] else [cacheKey p.1 p.2])
      ++ runNetAdds cancelAt (c0 + 1) ps

/-- The successful-fetch log entries a cold-cache batch adds. -/
def runOkAdds (fetcher : Fetcher) (cancelAt : Option Nat) :
    Nat → List (String × String) → List String
  | _, [] => []
  | c0, p :: ps =>
    (if !abortedAt cancelAt c0 && isOkE (partOutcome fetcher p.1 p.2) then
      [cacheKey p.1 p.2]
     else []) ++ runOkAdds fetcher cancelAt (c0 + 1) ps

/-- The public operations of the service singleton, for stating
state invariants. -/
inductive ServiceOp where
  | fetchOne (fetcher : Fetcher) (aborted : Bool) (zone queryType : String) : ServiceOp
  | batch (fetcher : Fetcher) (cancelAt : Option Nat)
      (zones queryTypes : List String) : ServiceOp
  | cancel : ServiceOp
  | clear : ServiceOp

/-- Apply one service operation to the service state. -/
def applyOp (st : ServiceState) : ServiceOp → ServiceState
  | ServiceOp.fetchOne fetcher aborted zone queryType =>
    (fetchZoneData fetcher aborted zone queryType st).2
  | ServiceOp.batch fetcher cancelAt zones queryTypes =>
    (fetchBatchData fetcher cancelAt zones queryTypes st).2.2
  | ServiceOp.cancel => cancelFetch st
  | ServiceOp.clear => clearCache st

/-- Run a sequence of service operations. -/
def runOps (ops : List ServiceOp) (st : ServiceState) : ServiceState :=
  ops.foldl applyOp st

/-- The cache-soundness invariant: every key present in the cache is
one whose fetch completed without error (recorded in the ghost success
log). -/
def CacheSound (st : ServiceState) : Prop :=
  ∀ k ∈ st.cache.map Prod.fst, k ∈ st.oklog

/-! A reference-level model of the cache path, tracking JS object
identity: arrays live in a heap and the cache maps keys to heap
addresses, exactly as a JS `Map` holds references. It makes caller
mutation of a returned array expressible. -/

/-- Reference-level service state: the heap of arrays, the cache as a
key-to-address map, and the ghost network log. -/
structure RefState where
  heap : List (List Record) := []
  cache : List (String × Nat) := []
  netlog : List String := []
deriving DecidableEq, Repr

/-- JS `Map.prototype.get` over the reference-level cache. -/
def lookupRef (cache : List (String × Nat)) (k : String) : Option Nat :=
  (cache.find? (fun p => p.1 == k)).map (fun p => p.2)

/-- Dereference a heap address. -/
def heapGet (heap : List (List Record)) (addr : Nat) : List Record :=
  heap.getD addr []

/-- Overwrite the array at a heap address (what a caller mutating the
array it was handed does). -/
def heapSet (heap : List (List Record)) (addr : Nat) (v : List Record) :
    List (List Record) :=
  heap.set addr v

/-- Reference-level `fetchZoneData` (lines 73-124): a cache hit returns
the stored address itself — the source returns `this.cache.get(key)`
without copying or freezing — and a miss allocates a fresh array,
caches its address on success, and returns it. -/
def fetchZoneDataRef (fetcher : Fetcher) (st : RefState) (zone queryType : String) :
    Nat × RefState :=
  let key := cacheKey zone queryType
  match lookupRef st.cache key with
  | some addr => (addr, st)
  | none =>
    match partOutcome fetcher zone queryType with
    | Except.ok rows =>
      let processedData := processResponse queryType zone rows
      let addr := st.heap.length
      (addr, { heap := st.heap ++ [processedData],
               cache := st.cache ++ [(key, addr)],
               netlog := st.netlog ++ [key] })
    | Except.error _ =>
      let addr := st.heap.length
      (addr, { st with heap := st.heap ++ [[]], netlog := st.netlog ++ [key] })

/-- A caller mutating, in place, the array it was handed. -/
def callerMutate (st : RefState) (addr : Nat) (v : List Record) : RefState :=
  { st with heap := heapSet st.heap addr v }

/-! Concrete scenario runs used by counterexamples and witnesses. -/

/-- Scenario C fetch environment: the partition (AA, Q1) fails on every
attempt, every other partition returns one marker row. -/
def c1Fetcher : Fetcher := fun zone queryType _ =>
  if zone == "AA" && queryType == "Q1" then Except.error "Network error"
  else Except.ok [{ csnr := some (cacheKey zone queryType) }]

/-- Scenario C: a 2-zone, 2-query-type batch in which exactly the
partition (AA, Q1) fails after exhausting its retries. -/
def c1Run : List Record × List ProgressEvent × ServiceState :=
  fetchBatchData c1Fetcher none ["AA", "BB"] ["Q1", "Q2"] {}

/-- Scenario D fetch environment: every partition succeeds with one
marker row. -/
def c2Fetcher : Fetcher := fun zone queryType _ =>
  Except.ok [{ csnr := some (cacheKey zone queryType) }]

/-- Scenario D: a 4-partition batch cancelled after the first partition
completes. -/
def c2Run : FetchResult × List ProgressEvent × ServiceState :=
  fetchSelectedZones c2Fetcher (some 1) ["A1", "B1", "C1", "D1"] ["QD"] {}

/-- An all-success fetch environment over 4 zones and 2 query types,
used to observe the partition processing order. -/
def c4Fetcher : Fetcher := fun zone queryType _ =>
  Except.ok [{ csnr := some (cacheKey zone queryType) }]

/-- A 4-zone, 2-query-type batch run observing the fetch order. -/
def c4Run : List Record × List ProgressEvent × ServiceState :=
  fetchBatchData c4Fetcher none ["Z1", "Z2", "Z3", "Z4"] ["QA", "QB"] {}

/-- A fetch environment for the reference-level cache scenario. -/
def c3Fetcher : Fetcher := fun zone queryType _ =>
  Except.ok [{ csnr := some (cacheKey zone queryType) }]

/-- First fetch of partition (NR, Q1) against an empty reference-level
state. -/
def c3First : Nat × RefState := fetchZoneDataRef c3Fetcher {} "NR" "Q1"

/-- The caller empties the array it was handed, through its reference. -/
def c3Mutated : RefState := callerMutate c3First.2 c3First.1 []

/-- Second fetch of the same partition, now a cache hit. -/
def c3Second : Nat × RefState := fetchZoneDataRef c3Fetcher c3Mutated "NR" "Q1"

/-- Thirteen records with thirteen distinct routes, enough to overflow a
truncation limit of 12. -/
def c7Data : List Record :=
  (List.range 13).map (fun i => { sttnfrom := some ("S" ++ toString i) })

/-- A fetch environment whose every attempt fails, for witnesses about
the error path. -/
def failFetcher : Fetcher := fun _ _ _ => Except.error "boom"

/-! Theorems. Helper lemmas come first, then one theorem per claim with
its witness or counterexample. -/

/-- One pass of the time-distribution loop preserves the bucket count. -/
theorem timeStep_length (acc : List HourBucket) (r : Record) :
    (timeStep acc r).length = acc.length := by
  unfold timeStep
  cases recordHour r <;> simp

/-- The whole time-distribution fold preserves the bucket count. -/
theorem timeFold_length (data : List Record) :
    ∀ acc : List HourBucket, (data.foldl timeStep acc).length = acc.length := by
  induction data with
  | nil => intro acc; rfl
  | cons r data ih => intro acc; rw [List.foldl_cons, ih, timeStep_length]

/-- Each bucket of the time-distribution fold keeps its hour and label,
and its final count is its seed count plus the number of records whose
hour matches it. -/
theorem timeFold_get (data : List Record) :
    ∀ (acc : List HourBucket) (j : Nat) (b : HourBucket), acc[j]? = some b →
      ∃ b2, (data.foldl timeStep acc)[j]? = some b2 ∧ b2.hour = b.hour ∧
        b2.label = b.label ∧
        b2.orders = b.orders + data.countP (fun r => recordHour r == some b.hour) := by
  induction data with
  | nil => intro acc j b hb; exact ⟨b, hb, rfl, rfl, by simp⟩
  | cons r data ih =>
    intro acc j b hb
    rw [List.foldl_cons]
    rcases hh : recordHour r with _ | h
    · have hstep : timeStep acc r = acc := by simp [timeStep, hh]
      rw [hstep]
      obtain ⟨b2, h1, h2, h3, h4⟩ := ih acc j b hb
      refine ⟨b2, h1, h2, h3, ?_⟩
      rw [h4, List.countP_cons]
      simp [hh]
    · have hstep : timeStep acc r =
          acc.map (fun b => if b.hour == h then { b with orders := b.orders + 1 } else b) := by
        simp [timeStep, hh]
      rw [hstep]
      have hb2 : (acc.map
            (fun b => if b.hour == h then { b with orders := b.orders + 1 } else b))[j]? =
          some (if b.hour == h then { b with orders := b.orders + 1 } else b) := by
        rw [List.getElem?_map, hb]
        rfl
      by_cases hbh : b.hour = h
      · rw [if_pos (by simpa using hbh)] at hb2
        obtain ⟨b2, h1, h2, h3, h4⟩ := ih _ j _ hb2
        refine ⟨b2, h1, by simpa using h2, by simpa using h3, ?_⟩
        rw [h4, List.countP_cons]
        simp only [hh, hbh]
        simp
        omega
      · rw [if_neg (by simpa using hbh)] at hb2
        obtain ⟨b2, h1, h2, h3, h4⟩ := ih _ j _ hb2
        refine ⟨b2, h1, h2, h3, ?_⟩
        rw [h4, List.countP_cons]
        have : (recordHour r == some b.hour) = false := by
          simp [hh]
          exact fun hcon => hbh hcon.symm
        simp [this]

/-- C8: for every input record set, including the empty set, the
time-of-day reducer returns exactly 24 buckets, one per hour 0-23, in
ascending hour order (bucket `i` carries hour `i`), and an hour matched
by no record carries an order count of 0. -/
theorem getTimeDistribution_24_buckets (data : List Record) (i : Nat) (hi : i < 24) :
    (getTimeDistribution data).length = 24 ∧
    ∃ b : HourBucket, (getTimeDistribution data)[i]? = some b ∧ b.hour = i ∧
      b.label = hourLabel i ∧
      b.orders = data.countP (fun r => recordHour r == some i) ∧
      ((∀ r ∈ data, recordHour r ≠ some i) → b.orders = 0) := by
  have hlen : (getTimeDistribution data).length = 24 := by
    rw [getTimeDistribution, timeFold_length]
    simp [timeInit]
  have hinit : timeInit[i]? = some { hour := i, label := hourLabel i, orders := 0 } := by
    simp [timeInit, List.getElem?_map, List.getElem?_range, hi]
  obtain ⟨b, h1, h2, h3, h4⟩ := timeFold_get data timeInit i _ hinit
  have h4i : b.orders = data.countP (fun r => recordHour r == some i) := by
    simpa using h4
  refine ⟨hlen, b, h1, by simpa using h2, by simpa using h3, h4i, ?_⟩
  intro hnone
  rw [h4i, List.countP_eq_zero]
  intro r hr
  simpa using hnone r hr

/-- C8 witness: the theorem applied to the empty record set at hour 0. -/
theorem getTimeDistribution_24_buckets_witness :
    (0 < 24) ∧
    ((getTimeDistribution []).length = 24 ∧
     ∃ b : HourBucket, (getTimeDistribution [])[0]? = some b ∧ b.hour = 0 ∧
       b.label = hourLabel 0 ∧
       b.orders = List.countP (fun r => recordHour r == some 0) [] ∧
       ((∀ r ∈ ([] : List Record), recordHour r ≠ some 0) → b.orders = 0)) :=
  ⟨by decide, getTimeDistribution_24_buckets [] 0 (by decide)⟩

/-- C7 counterexample: on thirteen records with thirteen distinct
routes, the route reducer called with no limit keeps all 13 buckets —
its default limit is 15, not 12 as the claim states (a default of 12
would have truncated to 12). -/
theorem route_default_not_12 :
    getRouteAnalysis c7Data ≠ getRouteAnalysis c7Data 12 ∧
    (getRouteAnalysis c7Data).length = 13 ∧
    (getRouteAnalysis c7Data 12).length = 12 := by decide

/-- C7 amended: each truncating reducer's limit is a caller-supplied
parameter bounding the output length; when no limit is supplied, the
route reducer defaults to 15 (not 12) and the other truncating reducers
default to 10. -/
theorem truncation_limits :
    (∀ (data : List Record) (limit : Nat), (getRouteAnalysis data limit).length ≤ limit) ∧
    (∀ data : List Record, getRouteAnalysis data = getRouteAnalysis data 15) ∧
    (∀ data : List Record, getTopConsignors data = getTopConsignors data 10) ∧
    (∀ data : List Record, getTopDestinations data = getTopDestinations data 10) ∧
    (∀ data : List Record, aggregateByRakeType data = aggregateByRakeType data 10) ∧
    (∀ data : List Record, getConsigneeAnalysis data = getConsigneeAnalysis data 10) := by
  refine ⟨?_, fun _ => rfl, fun _ => rfl, fun _ => rfl, fun _ => rfl, fun _ => rfl⟩
  intro data limit
  simp only [getRouteAnalysis]
  exact List.length_take_le _ _

/-- C5 counterexample: a row whose indent-unit field is a non-numeric
string normalizes to a `NaN` rake-unit count, not to the 0 the claim
states. -/
theorem unit_parse_failure_not_zero :
    (processRow "Q" "Z" { indtunit := some "abc" }).rakeUnits = JsNum.nan ∧
    (processRow "Q" "Z" { indtunit := some "abc" }).rakeUnits ≠ JsNum.int 0 := by decide

/-- C5 amended: the normalizer never throws and parses the unit fields
with JS `parseInt` semantics: when both alternative fields are falsy
(absent or empty) the count is 0; a truthy field is parsed, yielding
`NaN` (not 0) when no decimal digit prefix exists, and the signed value
of the digit prefix otherwise. -/
theorem unit_parsing (row : RawRow) (queryType zone : String) :
    ((processRow queryType zone row).rakeUnits = unitValue row.indtunit row.ostgunit) ∧
    ((processRow queryType zone row).rake8w = unitValue row.indt8w row.ostg8w) ∧
    (∀ a b : Option String, truthyS (jsOrS a b) = false → unitValue a b = JsNum.int 0) ∧
    (∀ (a b : Option String) (s : String), jsOrS a b = some s → truthyS (some s) = true →
      unitValue a b = parseIntJs s) ∧
    (∀ s : String, jsIntDigits s = [] → parseIntJs s = JsNum.nan) ∧
    (∀ s : String, jsIntDigits s ≠ [] →
      parseIntJs s = JsNum.int (jsIntSign s * (jsDigitsVal (jsIntDigits s) : Int))) := by
  refine ⟨rfl, rfl, ?_, ?_, ?_, ?_⟩
  · intro a b hf
    unfold unitValue
    rcases h : jsOrS a b with _ | s
    · rfl
    · rw [h] at hf
      have hs : s = "" := by simpa [truthyS] using hf
      simp [hs]
  · intro a b s h ht
    simp only [truthyS, Bool.not_eq_true] at ht
    simp [unitValue, h, ht]
    intro hcon
    rw [hcon] at ht
    simp at ht
  · intro s h
    simp [parseIntJs, h]
  · intro s h
    simp [parseIntJs, h]

/-- C5 witness: the amended theorem applied at concrete unit fields. -/
theorem unit_parsing_witness :
    unitValue none none = JsNum.int 0 ∧
    parseIntJs "abc" = JsNum.nan ∧
    unitValue (some "7") none = parseIntJs "7" :=
  ⟨(unit_parsing {} "Q" "Z").2.2.1 none none (by decide),
   (unit_parsing {} "Q" "Z").2.2.2.2.1 "abc" (by decide),
   (unit_parsing {} "Q" "Z").2.2.2.1 (some "7") none "7" (by decide) (by decide)⟩

/-- C6 counterexample: a row whose demand-date field is a non-empty
unparseable string normalizes to a `NaN` month and year and an Invalid
Date object — none of the three fields is null, contradicting the
claim for absent-or-unparseable dates. -/
theorem unparseable_date_not_null :
    (processRow "Q" "Z" { dmnddate := some "garbage" }).month = some JsNum.nan ∧
    (processRow "Q" "Z" { dmnddate := some "garbage" }).month ≠ none ∧
    (processRow "Q" "Z" { dmnddate := some "garbage" }).year = some JsNum.nan ∧
    (processRow "Q" "Z" { dmnddate := some "garbage" }).demandDateObj = some none ∧
    (processRow "Q" "Z" { dmnddate := some "garbage" }).demandDateObj ≠ none := by decide

/-- C6 amended: a row whose demand-date field is absent (or empty, i.e.
falsy) gets null date, month and year; a row whose demand-date is a
truthy but unparseable string gets an Invalid Date object and `NaN`
month and year (not null); in both cases the row itself is not
rejected — only TOTAL division rows are filtered. -/
theorem date_parsing (row : RawRow) (queryType zone : String) :
    (truthyS row.dmnddate = false →
      (processRow queryType zone row).demandDateObj = none ∧
      (processRow queryType zone row).month = none ∧
      (processRow queryType zone row).year = none) ∧
    (∀ s : String, row.dmnddate = some s → truthyS (some s) = true → parseJsDate s = none →
      (processRow queryType zone row).demandDateObj = some none ∧
      (processRow queryType zone row).month = some JsNum.nan ∧
      (processRow queryType zone row).year = some JsNum.nan) ∧
    (row.dvsn ≠ some "TOTAL" →
      processResponse queryType zone [row] = [processRow queryType zone row]) := by
  refine ⟨?_, ?_, ?_⟩
  · intro hf
    simp [processRow, hf]
  · intro s hs ht hp
    rw [show (processRow queryType zone row).demandDateObj =
          (if truthyS row.dmnddate then some (parseJsDate (row.dmnddate.getD "")) else none)
        from rfl]
    rw [show (processRow queryType zone row).month =
          (if truthyS row.dmnddate then
            some (dateGetMonth (parseJsDate (row.dmnddate.getD ""))) else none)
        from rfl]
    rw [show (processRow queryType zone row).year =
          (if truthyS row.dmnddate then
            some (dateGetFullYear (parseJsDate (row.dmnddate.getD ""))) else none)
        from rfl]
    rw [hs]
    simp [ht, hp, dateGetMonth, dateGetFullYear]
  · intro hd
    simp [processResponse, hd]

/-- C6 witness: the amended theorem applied at concrete rows. -/
theorem date_parsing_witness :
    ((processRow "Q" "Z" ({} : RawRow)).demandDateObj = none ∧
     (processRow "Q" "Z" ({} : RawRow)).month = none ∧
     (processRow "Q" "Z" ({} : RawRow)).year = none) ∧
    ((processRow "Q" "Z" { dmnddate := some "junk" }).demandDateObj = some none ∧
     (processRow "Q" "Z" { dmnddate := some "junk" }).month = some JsNum.nan ∧
     (processRow "Q" "Z" { dmnddate := some "junk" }).year = some JsNum.nan) ∧
    processResponse "Q" "Z" [({} : RawRow)] = [processRow "Q" "Z" ({} : RawRow)] :=
  ⟨(date_parsing {} "Q" "Z").1 (by decide),
   (date_parsing { dmnddate := some "junk" } "Q" "Z").2.1 "junk" rfl (by decide) (by decide),
   (date_parsing {} "Q" "Z").2.2 (by decide)⟩

/-- Retrying a fetch whose every attempt fails yields the failure. -/
theorem fetchWithRetryGo_const_error (e : String) :
    ∀ (remaining attempt : Nat),
      fetchWithRetryGo (fun _ => Except.error e) attempt remaining = Except.error e := by
  intro remaining
  induction remaining with
  | zero => intro attempt; rfl
  | succ r ih => intro attempt; exact ih (attempt + 1)

/-- Under an aborted signal every retried fetch settles to the
AbortError. -/
theorem fetchWithRetry_aborted (fetcher : Fetcher) (zone queryType : String) (attempt : Nat) :
    fetchWithRetry (effectiveAttempt fetcher zone queryType true) attempt =
      Except.error "AbortError" := by
  have h : effectiveAttempt fetcher zone queryType true =
      (fun _ => Except.error "AbortError") := by
    funext n
    rfl
  rw [fetchWithRetry, h, fetchWithRetryGo_const_error]

/-- Under a live signal the retried fetch is the partition outcome. -/
theorem fetchWithRetry_live (fetcher : Fetcher) (zone queryType : String) :
    fetchWithRetry (effectiveAttempt fetcher zone queryType false) 1 =
      partOutcome fetcher zone queryType := by
  have h : effectiveAttempt fetcher zone queryType false = fetcher zone queryType := by
    funext n
    rfl
  rw [fetchWithRetry, h, partOutcome, fetchWithRetry]

/-- The embedding satisfies the recurrence of the source's
`fetchWithRetry`: try the attempt, retry while `attempt` is below the
configured attempt count, rethrow on exhaustion. -/
theorem fetchWithRetry_eq (ar : Nat → Except String (List RawRow)) (attempt : Nat) :
    fetchWithRetry ar attempt =
      match ar attempt with
      | Except.ok d => Except.ok d
      | Except.error e =>
        if attempt < retryAttempts then fetchWithRetry ar (attempt + 1)
        else Except.error e := by
  unfold fetchWithRetry
  cases har : ar attempt with
  | ok d => simp [fetchWithRetryGo, har]
  | error e =>
    by_cases h : attempt < retryAttempts
    · have h3 : retryAttempts - attempt = (retryAttempts - (attempt + 1)) + 1 := by omega
      rw [h3, fetchWithRetryGo, har]
      simp [h, fetchWithRetry]
    · have h0 : retryAttempts - attempt = 0 := by omega
      rw [h0, fetchWithRetryGo, har]
      simp [h]

/-- A lookup missing from a prefix of the cache continues in the
suffix. -/
theorem lookupCache_append_none (c1 c2 : List (String × List Record)) (k : String)
    (h1 : lookupCache c1 k = none) :
    lookupCache (c1 ++ c2) k = lookupCache c2 k := by
  induction c1 with
  | nil => simp
  | cons p c1 ih =>
    cases hp : p.1 == k with
    | true => simp [lookupCache, List.find?_cons, hp] at h1
    | false =>
      have h1t : lookupCache c1 k = none := by
        simpa [lookupCache, List.find?_cons, hp] using h1
      simpa [lookupCache, List.find?_cons, hp] using ih h1t

/-- A lookup misses a fresh single entry with a different key. -/
theorem lookupCache_single_ne (k0 : String) (v : List Record) (k : String) (h : k ≠ k0) :
    lookupCache [(k0, v)] k = none := by
  have : (k0 == k) = false := by
    simp [h]
    exact fun hcon => h hcon.symm
  simp [lookupCache, List.find?_cons, this]

/-- Flattening twice is flattening the once-flattened groups. -/
theorem flatten_map_flatten {α β : Type} (l : List α) (f : α → List (List β)) :
    ((l.map f).flatten).flatten = (l.map (fun x => (f x).flatten)).flatten := by
  induction l with
  | nil => rfl
  | cons x l ih => simp [ih]

/-- The flat schedule grouped by zone-chunk. -/
theorem scheduleFlat_chunks (zones queryTypes : List String) :
    scheduleFlat zones queryTypes =
      ((chunk3 zones).map
        (fun g => (queryTypes.map (fun q => g.map (fun z => (z, q)))).flatten)).flatten := by
  unfold scheduleFlat scheduleWaves
  exact flatten_map_flatten _ _

/-- Chunking preserves the zone list. -/
theorem chunk3_flatten {α : Type} (l : List α) : (chunk3 l).flatten = l := by
  induction l using chunk3.induct with
  | case1 => rfl
  | case2 a => rfl
  | case3 a b => rfl
  | case4 a b c rest ih => simp [chunk3, ih]

/-- Every chunk has at most 3 elements. -/
theorem chunk3_length_le {α : Type} (l : List α) :
    ∀ g ∈ chunk3 l, g.length ≤ 3 := by
  induction l using chunk3.induct with
  | case1 => intro g hg; simp [chunk3] at hg
  | case2 a => intro g hg; simp [chunk3] at hg; simp [hg]
  | case3 a b => intro g hg; simp [chunk3] at hg; simp [hg]
  | case4 a b c rest ih =>
    intro g hg
    simp only [chunk3, List.mem_cons] at hg
    rcases hg with hg | hg
    · simp [hg]
    · exact ih g hg

/-- Length of one zone-group's partition block. -/
theorem groupFlat_length (g queryTypes : List String) :
    ((queryTypes.map (fun q => g.map (fun z => (z, q)))).flatten).length =
      queryTypes.length * g.length := by
  induction queryTypes with
  | nil => simp
  | cons q qts ih =>
    simp only [List.map_cons, List.flatten_cons, List.length_append, List.length_map,
      List.length_cons, ih]
    ring

/-- The flat schedule has one partition per zone and query type. -/
theorem scheduleFlat_length (zones queryTypes : List String) :
    (scheduleFlat zones queryTypes).length = zones.length * queryTypes.length := by
  rw [scheduleFlat_chunks]
  have h : ∀ gs : List (List String),
      ((gs.map (fun g => (queryTypes.map (fun q => g.map (fun z => (z, q)))).flatten)).flatten).length
        = queryTypes.length * (gs.flatten).length := by
    intro gs
    induction gs with
    | nil => simp
    | cons g gs ih =>
      simp only [List.map_cons, List.flatten_cons, List.length_append, groupFlat_length, ih]
      ring
  rw [h, chunk3_flatten, Nat.mul_comm]

/-- Splitting a flat run at an append boundary. -/
theorem runFlat_append (fetcher : Fetcher) (cancelAt : Option Nat) (total : Nat)
    (l1 l2 : List (String × String)) (acc : BatchAcc) :
    runFlat fetcher cancelAt total (l1 ++ l2) acc =
      runFlat fetcher cancelAt total l2 (runFlat fetcher cancelAt total l1 acc) := by
  simp [runFlat, List.foldl_append]

/-- One wave is the flat run of its zone-tagged partitions. -/
theorem runWave_eq (fetcher : Fetcher) (cancelAt : Option Nat) (total : Nat)
    (queryType : String) (acc : BatchAcc) (zoneBatch : List String) :
    runWave fetcher cancelAt total queryType acc zoneBatch =
      runFlat fetcher cancelAt total (zoneBatch.map (fun z => (z, queryType))) acc := by
  rw [runFlat, List.foldl_map]
  rfl

/-- One zone group's pass over all query types is the flat run of its
partition block. -/
theorem runZoneBatch_eq (fetcher : Fetcher) (cancelAt : Option Nat) (total : Nat)
    (queryTypes : List String) (zoneBatch : List String) :
    ∀ acc : BatchAcc,
      runZoneBatch fetcher cancelAt total queryTypes acc zoneBatch =
        runFlat fetcher cancelAt total
          ((queryTypes.map (fun q => zoneBatch.map (fun z => (z, q)))).flatten) acc := by
  induction queryTypes with
  | nil => intro acc; rfl
  | cons q qts ih =>
    intro acc
    rw [List.map_cons, List.flatten_cons, runFlat_append, ← runWave_eq, ← ih]
    rfl

/-- The nested loops of `fetchBatchData` are the flat run over the
code's schedule. -/
theorem fetchBatchData_eq (fetcher : Fetcher) (cancelAt : Option Nat)
    (zones queryTypes : List String) (st : ServiceState) :
    fetchBatchData fetcher cancelAt zones queryTypes st =
      ((runFlat fetcher cancelAt (zones.length * queryTypes.length)
          (scheduleFlat zones queryTypes) { svc := st }).allData,
       (runFlat fetcher cancelAt (zones.length * queryTypes.length)
          (scheduleFlat zones queryTypes) { svc := st }).events,
       (runFlat fetcher cancelAt (zones.length * queryTypes.length)
          (scheduleFlat zones queryTypes) { svc := st }).svc) := by
  rw [scheduleFlat_chunks]
  unfold fetchBatchData
  have h : ∀ (gs : List (List String)) (acc : BatchAcc),
      gs.foldl (runZoneBatch fetcher cancelAt (zones.length * queryTypes.length) queryTypes) acc =
        runFlat fetcher cancelAt (zones.length * queryTypes.length)
          ((gs.map (fun g => (queryTypes.map (fun q => g.map (fun z => (z, q)))).flatten)).flatten)
          acc := by
    intro gs
    induction gs with
    | nil => intro acc; rfl
    | cons g gs ih =>
      intro acc
      rw [List.foldl_cons, List.map_cons, List.flatten_cons, runFlat_append, ← runZoneBatch_eq,
        ih]
  simp only [h]

/-- Master characterization of a batch run over partitions whose cache
keys are distinct and absent from the cache: the run appends, per
partition, the predicted records, progress event, cache entry and log
entries, with one completion per partition. -/
theorem runFlat_spec (fetcher : Fetcher) (cancelAt : Option Nat) (total : Nat) :
    ∀ (parts : List (String × String)) (acc : BatchAcc),
      (parts.map (fun p => cacheKey p.1 p.2)).Nodup →
      (∀ p ∈ parts, lookupCache acc.svc.cache (cacheKey p.1 p.2) = none) →
      runFlat fetcher cancelAt total parts acc =
        { svc := { cache := acc.svc.cache ++ runCacheAdds fetcher cancelAt acc.completed parts,
                   isFetching := acc.svc.isFetching,
                   netlog := acc.svc.netlog ++ runNetAdds cancelAt acc.completed parts,
                   oklog := acc.svc.oklog ++ runOkAdds fetcher cancelAt acc.completed parts },
          completed := acc.completed + parts.length,
          events := acc.events ++ runEvents fetcher cancelAt total acc.completed parts,
          allData := acc.allData ++ runData fetcher cancelAt acc.completed parts } := by
  intro parts
  induction parts with
  | nil =>
    intro acc _ _
    simp only [runFlat, List.foldl_nil, runCacheAdds, runNetAdds, runOkAdds, runEvents,
      runData, List.append_nil, List.length_nil, Nat.add_zero]
  | cons p ps ih =>
    intro acc hnd hlk
    have hkey : lookupCache acc.svc.cache (cacheKey p.1 p.2) = none :=
      hlk p (List.mem_cons_self p ps)
    have hnd0 := List.nodup_cons.mp hnd
    have hstep : runFlat fetcher cancelAt total (p :: ps) acc =
        runFlat fetcher cancelAt total ps
          (processPartition fetcher cancelAt total p.2 acc p.1) := rfl
    cases hab : abortedAt cancelAt acc.completed with
    | true =>
      have hacc2 : processPartition fetcher cancelAt total p.2 acc p.1 =
          { svc := acc.svc, completed := acc.completed + 1,
            events := acc.events ++
              [{ completed := acc.completed + 1, total := total,
                 percentage := roundPct (acc.completed + 1) total,
                 zone := p.1, queryType := p.2, recordsFetched := some 0,
                 errorMessage := none }],
            allData := acc.allData } := by
        simp [processPartition, fetchZoneData, hkey, hab, fetchWithRetry_aborted]
      have hrun := ih
        { svc := acc.svc, completed := acc.completed + 1,
          events := acc.events ++
            [{ completed := acc.completed + 1, total := total,
               percentage := roundPct (acc.completed + 1) total,
               zone := p.1, queryType := p.2, recordsFetched := some 0,
               errorMessage := none }],
          allData := acc.allData }
        hnd0.2 (fun p2 hp2 => hlk p2 (List.mem_cons_of_mem p hp2))
      rw [hstep, hacc2, hrun]
      simp [runCacheAdds, runNetAdds, runOkAdds, runEvents, runData, effRecords, hab,
        List.append_assoc]
      try omega
    | false =>
      cases ho : partOutcome fetcher p.1 p.2 with
      | ok rows =>
        have hacc2 : processPartition fetcher cancelAt total p.2 acc p.1 =
            { svc := { cache := acc.svc.cache ++
                         [(cacheKey p.1 p.2, processResponse p.2 p.1 rows)],
                       isFetching := acc.svc.isFetching,
                       netlog := acc.svc.netlog ++ [cacheKey p.1 p.2],
                       oklog := acc.svc.oklog ++ [cacheKey p.1 p.2] },
              completed := acc.completed + 1,
              events := acc.events ++
                [{ completed := acc.completed + 1, total := total,
                   percentage := roundPct (acc.completed + 1) total,
                   zone := p.1, queryType := p.2,
                   recordsFetched := some (processResponse p.2 p.1 rows).length,
                   errorMessage := none }],
              allData := acc.allData ++ processResponse p.2 p.1 rows } := by
          simp [processPartition, fetchZoneData, hkey, hab, fetchWithRetry_live, ho]
        have hlk2 : ∀ p2 ∈ ps,
            lookupCache (acc.svc.cache ++ [(cacheKey p.1 p.2, processResponse p.2 p.1 rows)])
              (cacheKey p2.1 p2.2) = none := by
          intro p2 hp2
          have hne : cacheKey p2.1 p2.2 ≠ cacheKey p.1 p.2 := by
            intro hcon
            apply hnd0.1
            show cacheKey p.1 p.2 ∈ List.map (fun p => cacheKey p.1 p.2) ps
            rw [← hcon]
            exact List.mem_map_of_mem _ hp2
          rw [lookupCache_append_none _ _ _ (hlk p2 (List.mem_cons_of_mem p hp2)),
            lookupCache_single_ne _ _ _ hne]
        have hrun := ih
          { svc := { cache := acc.svc.cache ++
                       [(cacheKey p.1 p.2, processResponse p.2 p.1 rows)],
                     isFetching := acc.svc.isFetching,
                     netlog := acc.svc.netlog ++ [cacheKey p.1 p.2],
                     oklog := acc.svc.oklog ++ [cacheKey p.1 p.2] },
            completed := acc.completed + 1,
            events := acc.events ++
              [{ completed := acc.completed + 1, total := total,
                 percentage := roundPct (acc.completed + 1) total,
                 zone := p.1, queryType := p.2,
                 recordsFetched := some (processResponse p.2 p.1 rows).length,
                 errorMessage := none }],
            allData := acc.allData ++ processResponse p.2 p.1 rows }
          hnd0.2 hlk2
        rw [hstep, hacc2, hrun]
        have hpr : partRecords fetcher p.1 p.2 = processResponse p.2 p.1 rows := by
          simp [partRecords, ho]
        simp [runCacheAdds, runNetAdds, runOkAdds, runEvents, runData, effRecords, hab,
          ho, isOkE, hpr, List.append_assoc]
        try omega
      | error e =>
        have hacc2 : processPartition fetcher cancelAt total p.2 acc p.1 =
            { svc := { cache := acc.svc.cache,
                       isFetching := acc.svc.isFetching,
                       netlog := acc.svc.netlog ++ [cacheKey p.1 p.2],
                       oklog := acc.svc.oklog },
              completed := acc.completed + 1,
              events := acc.events ++
                [{ completed := acc.completed + 1, total := total,
                   percentage := roundPct (acc.completed + 1) total,
                   zone := p.1, queryType := p.2, recordsFetched := some 0,
                   errorMessage := none }],
              allData := acc.allData } := by
          simp [processPartition, fetchZoneData, hkey, hab, fetchWithRetry_live, ho]
        have hrun := ih
          { svc := { cache := acc.svc.cache,
                     isFetching := acc.svc.isFetching,
                     netlog := acc.svc.netlog ++ [cacheKey p.1 p.2],
                     oklog := acc.svc.oklog },
            completed := acc.completed + 1,
            events := acc.events ++
              [{ completed := acc.completed + 1, total := total,
                 percentage := roundPct (acc.completed + 1) total,
                 zone := p.1, queryType := p.2, recordsFetched := some 0,
                 errorMessage := none }],
            allData := acc.allData }
          hnd0.2 (fun p2 hp2 => hlk p2 (List.mem_cons_of_mem p hp2))
        rw [hstep, hacc2, hrun]
        have hpr : partRecords fetcher p.1 p.2 = [] := by
          simp [partRecords, ho]
        simp [runCacheAdds, runNetAdds, runOkAdds, runEvents, runData, effRecords, hab,
          ho, isOkE, hpr, List.append_assoc]
        try omega

/-- Without cancellation every partition contributes its fetched
records. -/
theorem runData_none (fetcher : Fetcher) :
    ∀ (parts : List (String × String)) (c0 : Nat),
      runData fetcher none c0 parts =
        (parts.map (fun p => partRecords fetcher p.1 p.2)).flatten := by
  intro parts
  induction parts with
  | nil => intro c0; rfl
  | cons p ps ih => intro c0; simp [runData, effRecords, abortedAt, ih]

/-- Without cancellation every partition launches one network fetch. -/
theorem runNetAdds_none :
    ∀ (parts : List (String × String)) (c0 : Nat),
      runNetAdds none c0 parts = parts.map (fun p => cacheKey p.1 p.2) := by
  intro parts
  induction parts with
  | nil => intro c0; rfl
  | cons p ps ih => intro c0; simp [runNetAdds, abortedAt, ih]

/-- One progress event fires per partition. -/
theorem runEvents_length (fetcher : Fetcher) (cancelAt : Option Nat) (total : Nat) :
    ∀ (parts : List (String × String)) (c0 : Nat),
      (runEvents fetcher cancelAt total c0 parts).length = parts.length := by
  intro parts
  induction parts with
  | nil => intro c0; rfl
  | cons p ps ih => intro c0; simp [runEvents, ih]

/-- The completed counters of the progress stream count up by one per
partition. -/
theorem runEvents_completed (fetcher : Fetcher) (cancelAt : Option Nat) (total : Nat) :
    ∀ (parts : List (String × String)) (c0 : Nat),
      (runEvents fetcher cancelAt total c0 parts).map (fun ev => ev.completed) =
        List.range' (c0 + 1) parts.length := by
  intro parts
  induction parts with
  | nil => intro c0; rfl
  | cons p ps ih => intro c0; simp [runEvents, List.range', ih]

/-- No emitted progress event ever carries an error message: the catch
branch that would attach one is unreachable. -/
theorem runEvents_no_error (fetcher : Fetcher) (cancelAt : Option Nat) (total : Nat) :
    ∀ (parts : List (String × String)) (c0 : Nat),
      ∀ ev ∈ runEvents fetcher cancelAt total c0 parts, ev.errorMessage = none := by
  intro parts
  induction parts with
  | nil => intro c0 ev hev; simp [runEvents] at hev
  | cons p ps ih =>
    intro c0 ev hev
    simp only [runEvents, List.mem_cons] at hev
    rcases hev with hev | hev
    · rw [hev]
    · exact ih (c0 + 1) ev hev

/-- Without cancellation, each scheduled partition gets an event
carrying its zone, query type and fetched-record count, and no error
message. -/
theorem runEvents_mem_none (fetcher : Fetcher) (total : Nat) :
    ∀ (parts : List (String × String)) (c0 : Nat) (p : String × String), p ∈ parts →
      ∃ ev ∈ runEvents fetcher none total c0 parts, ev.zone = p.1 ∧ ev.queryType = p.2 ∧
        ev.recordsFetched = some (partRecords fetcher p.1 p.2).length ∧
        ev.errorMessage = none := by
  intro parts
  induction parts with
  | nil => intro c0 p hp; simp at hp
  | cons q ps ih =>
    intro c0 p hp
    rcases List.mem_cons.mp hp with hp | hp
    · refine ⟨_, List.mem_cons_self _ _, ?_⟩
      rw [hp]
      exact ⟨rfl, rfl, by simp [effRecords, abortedAt], rfl⟩
    · obtain ⟨ev, hev, hz, hq, hr, he⟩ := ih (c0 + 1) p hp
      exact ⟨ev, List.mem_cons_of_mem _ hev, hz, hq, hr, he⟩

/-- Once the cancel index is passed nothing more is gathered. -/
theorem runData_cancel_done (fetcher : Fetcher) (k : Nat) :
    ∀ (parts : List (String × String)) (c0 : Nat), k ≤ c0 →
      runData fetcher (some k) c0 parts = [] := by
  intro parts
  induction parts with
  | nil => intro c0 _; rfl
  | cons p ps ih =>
    intro c0 hk
    simp [runData, effRecords, abortedAt, hk, ih (c0 + 1) (by omega)]

/-- Once the cancel index is passed no network fetch is launched. -/
theorem runNetAdds_cancel_done (k : Nat) :
    ∀ (parts : List (String × String)) (c0 : Nat), k ≤ c0 →
      runNetAdds (some k) c0 parts = [] := by
  intro parts
  induction parts with
  | nil => intro c0 _; rfl
  | cons p ps ih =>
    intro c0 hk
    simp [runNetAdds, abortedAt, hk, ih (c0 + 1) (by omega)]

/-- With cancellation at index `k`, exactly the first `k - c0`
partitions contribute their records. -/
theorem runData_cancel (fetcher : Fetcher) (k : Nat) :
    ∀ (parts : List (String × String)) (c0 : Nat),
      runData fetcher (some k) c0 parts =
        ((parts.take (k - c0)).map (fun p => partRecords fetcher p.1 p.2)).flatten := by
  intro parts
  induction parts with
  | nil => intro c0; simp [runData]
  | cons p ps ih =>
    intro c0
    by_cases hk : k ≤ c0
    · have h0 : k - c0 = 0 := by omega
      simp [runData, effRecords, abortedAt, hk, h0, runData_cancel_done fetcher k ps (c0 + 1) (by omega)]
    · have h1 : k - c0 = (k - (c0 + 1)) + 1 := by omega
      simp only [runData, effRecords, abortedAt, h1, List.take_succ_cons, List.map_cons,
        List.flatten_cons, ih (c0 + 1)]
      have hfalse : (decide (k ≤ c0)) = false := by simp [hk]
      simp [hfalse]

/-- With cancellation at index `k`, exactly the first `k - c0`
partitions launch a network fetch. -/
theorem runNetAdds_cancel (k : Nat) :
    ∀ (parts : List (String × String)) (c0 : Nat),
      runNetAdds (some k) c0 parts =
        (parts.take (k - c0)).map (fun p => cacheKey p.1 p.2) := by
  intro parts
  induction parts with
  | nil => intro c0; simp [runNetAdds]
  | cons p ps ih =>
    intro c0
    by_cases hk : k ≤ c0
    · have h0 : k - c0 = 0 := by omega
      simp [runNetAdds, abortedAt, hk, h0, runNetAdds_cancel_done k ps (c0 + 1) (by omega)]
    · have h1 : k - c0 = (k - (c0 + 1)) + 1 := by omega
      simp only [runNetAdds, abortedAt, h1, List.take_succ_cons, List.map_cons, ih (c0 + 1)]
      have hfalse : (decide (k ≤ c0)) = false := by simp [hk]
      simp [hfalse]

/-- C1 counterexample: in a 2-zone, 2-query-type batch where exactly
the partition (AA, Q1) fails after exhausting its retries, the batch
completes with 4 progress events and the other 3 partitions' records —
but no event, in particular not the failed partition's, carries an
error message, because `fetchZoneData` swallows the error and resolves
with an empty array before the scheduler's catch can see it. -/
theorem failed_partition_event_has_no_error :
    partOutcome c1Fetcher "AA" "Q1" = Except.error "Network error" ∧
    c1Run.2.1.length = 4 ∧
    (∀ ev ∈ c1Run.2.1, ev.errorMessage = none) ∧
    c1Run.1 = [processRow "Q1" "BB" { csnr := some "BB-Q1" },
               processRow "Q2" "AA" { csnr := some "AA-Q2" },
               processRow "Q2" "BB" { csnr := some "BB-Q2" }] :=
  ⟨by rfl, by decide, by decide, by decide⟩

/-- C1 amended: for every cold-cache batch run with distinct partition
keys in which a partition (zf, qf) fails after exhausting its retries,
the batch does not halt: the merged array concatenates every
partition's contribution with the failed partition contributing
nothing, the progress callback fires once per partition with completed
counts 1..zones×queryTypes, and the failed partition's event reports
zero fetched records and carries no error message (the error is
swallowed inside the partition fetcher, so the scheduler's
error-message event branch never runs). -/
theorem single_failure_batch (zones queryTypes : List String) (fetcher : Fetcher)
    (st : ServiceState) (zf qf : String)
    (hst : st.cache = [])
    (hnd : ((scheduleFlat zones queryTypes).map (fun p => cacheKey p.1 p.2)).Nodup)
    (hmem : (zf, qf) ∈ scheduleFlat zones queryTypes)
    (hfail : ∃ e, partOutcome fetcher zf qf = Except.error e) :
    (fetchBatchData fetcher none zones queryTypes st).1 =
      ((scheduleFlat zones queryTypes).map
        (fun p => if p = (zf, qf) then [] else partRecords fetcher p.1 p.2)).flatten ∧
    (fetchBatchData fetcher none zones queryTypes st).2.1.length =
      zones.length * queryTypes.length ∧
    (fetchBatchData fetcher none zones queryTypes st).2.1.map (fun ev => ev.completed) =
      List.range' 1 (zones.length * queryTypes.length) ∧
    ∃ ev ∈ (fetchBatchData fetcher none zones queryTypes st).2.1,
      ev.zone = zf ∧ ev.queryType = qf ∧ ev.recordsFetched = some 0 ∧
      ev.errorMessage = none := by
  obtain ⟨e, he⟩ := hfail
  have hlk : ∀ p ∈ scheduleFlat zones queryTypes,
      lookupCache ({ svc := st } : BatchAcc).svc.cache (cacheKey p.1 p.2) = none := by
    intro p hp
    show lookupCache st.cache (cacheKey p.1 p.2) = none
    rw [hst]
    rfl
  have hrun := runFlat_spec fetcher none (zones.length * queryTypes.length)
    (scheduleFlat zones queryTypes) { svc := st } hnd hlk
  rw [fetchBatchData_eq, hrun]
  refine ⟨?_, ?_, ?_, ?_⟩
  · show runData fetcher none 0 (scheduleFlat zones queryTypes) = _
    rw [runData_none]
    congr 1
    apply List.map_congr_left
    intro p hp
    by_cases hpf : p = (zf, qf)
    · rw [hpf, if_pos rfl]
      show partRecords fetcher zf qf = []
      simp [partRecords, he]
    · rw [if_neg hpf]
  · show (runEvents fetcher none _ 0 (scheduleFlat zones queryTypes)).length = _
    rw [runEvents_length, scheduleFlat_length]
  · show (runEvents fetcher none _ 0 (scheduleFlat zones queryTypes)).map _ = _
    rw [runEvents_completed, scheduleFlat_length]
  · show ∃ ev ∈ runEvents fetcher none _ 0 (scheduleFlat zones queryTypes), _
    obtain ⟨ev, hev, hz, hq, hr, herr⟩ :=
      runEvents_mem_none fetcher (zones.length * queryTypes.length)
        (scheduleFlat zones queryTypes) 0 (zf, qf) hmem
    refine ⟨ev, hev, hz, hq, ?_, herr⟩
    rw [hr]
    have : partRecords fetcher zf qf = [] := by simp [partRecords, he]
    rw [this]
    rfl

/-- C1 witness: the amended theorem applied to the 2-zone, 2-query-type
scenario with the failing partition (AA, Q1). -/
theorem single_failure_batch_witness :
    (fetchBatchData c1Fetcher none ["AA", "BB"] ["Q1", "Q2"] {}).1 =
      ((scheduleFlat ["AA", "BB"] ["Q1", "Q2"]).map
        (fun p => if p = ("AA", "Q1") then [] else partRecords c1Fetcher p.1 p.2)).flatten ∧
    (fetchBatchData c1Fetcher none ["AA", "BB"] ["Q1", "Q2"] {}).2.1.length = 4 ∧
    (fetchBatchData c1Fetcher none ["AA", "BB"] ["Q1", "Q2"] {}).2.1.map
        (fun ev => ev.completed) = List.range' 1 4 ∧
    ∃ ev ∈ (fetchBatchData c1Fetcher none ["AA", "BB"] ["Q1", "Q2"] {}).2.1,
      ev.zone = "AA" ∧ ev.queryType = "Q1" ∧ ev.recordsFetched = some 0 ∧
      ev.errorMessage = none :=
  single_failure_batch ["AA", "BB"] ["Q1", "Q2"] c1Fetcher {} "AA" "Q1" rfl (by decide)
    (by decide) ⟨"Network error", by rfl⟩

/-- C2 counterexample: scenario D — a 4-partition batch cancelled after
the first partition completes resolves with exactly the first
partition's records and launches no further network fetch, but the
result is the ordinary success shape: the code defines no "cancelled"
status distinct from success, contradicting the claim. -/
theorem cancelled_batch_reports_success :
    c2Run.1.success = true ∧
    c2Run.1.data = [processRow "QD" "A1" { csnr := some "A1-QD" }] ∧
    c2Run.2.2.netlog = ["A1-QD"] ∧
    c2Run.1.errorMessage = none := by decide

/-- C2 amended: for every cold-cache batch run with distinct partition
keys cancelled after `k` partitions have completed, no further network
fetch is started (the aborted calls reject immediately) and the batch
resolves with exactly the records of the `k` completed partitions — but
tagged as an ordinary success: the code has no "cancelled" status, so
the result is indistinguishable from a successful batch. -/
theorem cancellation_batch (zones queryTypes : List String) (fetcher : Fetcher)
    (st : ServiceState) (k : Nat)
    (hst : st.cache = [])
    (hnd : ((scheduleFlat zones queryTypes).map (fun p => cacheKey p.1 p.2)).Nodup) :
    (fetchSelectedZones fetcher (some k) zones queryTypes st).1.success = true ∧
    (fetchSelectedZones fetcher (some k) zones queryTypes st).1.data =
      (((scheduleFlat zones queryTypes).take k).map
        (fun p => partRecords fetcher p.1 p.2)).flatten ∧
    (fetchSelectedZones fetcher (some k) zones queryTypes st).2.2.netlog =
      st.netlog ++ ((scheduleFlat zones queryTypes).take k).map
        (fun p => cacheKey p.1 p.2) := by
  have hlk : ∀ p ∈ scheduleFlat zones queryTypes,
      lookupCache ({ svc := st } : BatchAcc).svc.cache (cacheKey p.1 p.2) = none := by
    intro p hp
    show lookupCache st.cache (cacheKey p.1 p.2) = none
    rw [hst]
    rfl
  have hrun := runFlat_spec fetcher (some k) (zones.length * queryTypes.length)
    (scheduleFlat zones queryTypes) { svc := st } hnd hlk
  refine ⟨rfl, ?_, ?_⟩
  · show (fetchBatchData fetcher (some k) zones queryTypes st).1 = _
    rw [fetchBatchData_eq, hrun]
    show runData fetcher (some k) 0 (scheduleFlat zones queryTypes) = _
    rw [runData_cancel]
    simp
  · show (fetchBatchData fetcher (some k) zones queryTypes st).2.2.netlog = _
    rw [fetchBatchData_eq, hrun]
    show st.netlog ++ runNetAdds (some k) 0 (scheduleFlat zones queryTypes) = _
    rw [runNetAdds_cancel]
    simp

/-- C2 witness: the amended theorem applied to scenario D, a 4-zone
single-query-type batch cancelled after 1 completion. -/
theorem cancellation_batch_witness :
    (fetchSelectedZones c2Fetcher (some 1) ["A1", "B1", "C1", "D1"] ["QD"] {}).1.success =
      true ∧
    (fetchSelectedZones c2Fetcher (some 1) ["A1", "B1", "C1", "D1"] ["QD"] {}).1.data =
      (((scheduleFlat ["A1", "B1", "C1", "D1"] ["QD"]).take 1).map
        (fun p => partRecords c2Fetcher p.1 p.2)).flatten ∧
    (fetchSelectedZones c2Fetcher (some 1) ["A1", "B1", "C1", "D1"] ["QD"] {}).2.2.netlog =
      ({} : ServiceState).netlog ++
        ((scheduleFlat ["A1", "B1", "C1", "D1"] ["QD"]).take 1).map
          (fun p => cacheKey p.1 p.2) :=
  cancellation_batch ["A1", "B1", "C1", "D1"] ["QD"] c2Fetcher {} 1 rfl (by decide)

/-- C4 counterexample: on 4 zones and 2 query types the batch fetches
partitions with zone-groups as the outer loop and query types as the
inner loop; the order the claim describes (query types outer) differs. -/
theorem schedule_order_not_query_type_outer :
    c4Run.2.2.netlog =
      ["Z1-QA", "Z2-QA", "Z3-QA", "Z1-QB", "Z2-QB", "Z3-QB", "Z4-QA", "Z4-QB"] ∧
    (scheduleSpecClaim ["Z1", "Z2", "Z3", "Z4"] ["QA", "QB"]).map
        (fun p => cacheKey p.1 p.2) =
      ["Z1-QA", "Z2-QA", "Z3-QA", "Z4-QA", "Z1-QB", "Z2-QB", "Z3-QB", "Z4-QB"] ∧
    c4Run.2.2.netlog ≠
      (scheduleSpecClaim ["Z1", "Z2", "Z3", "Z4"] ["QA", "QB"]).map
        (fun p => cacheKey p.1 p.2) := by decide

/-- C4 amended: the batch scheduler partitions the zones into
fixed-size groups of at most 3 covering the zone list, and iterates
zone-groups as the outer loop and query types as the inner loop: within
a group all zones of the current query type form one concurrent wave,
and all query types of a zone-group are processed before the next
group. A cold-cache run with distinct keys launches its fetches exactly
in that schedule order. -/
theorem batch_schedule_order (zones queryTypes : List String) (fetcher : Fetcher)
    (st : ServiceState)
    (hst : st.cache = [])
    (hnd : ((scheduleFlat zones queryTypes).map (fun p => cacheKey p.1 p.2)).Nodup) :
    (fetchBatchData fetcher none zones queryTypes st).2.2.netlog =
      st.netlog ++ (scheduleFlat zones queryTypes).map (fun p => cacheKey p.1 p.2) ∧
    scheduleFlat zones queryTypes =
      ((chunk3 zones).map
        (fun g => (queryTypes.map (fun q => g.map (fun z => (z, q)))).flatten)).flatten ∧
    (chunk3 zones).flatten = zones ∧
    (∀ g ∈ chunk3 zones, g.length ≤ 3) := by
  have hlk : ∀ p ∈ scheduleFlat zones queryTypes,
      lookupCache ({ svc := st } : BatchAcc).svc.cache (cacheKey p.1 p.2) = none := by
    intro p hp
    show lookupCache st.cache (cacheKey p.1 p.2) = none
    rw [hst]
    rfl
  have hrun := runFlat_spec fetcher none (zones.length * queryTypes.length)
    (scheduleFlat zones queryTypes) { svc := st } hnd hlk
  refine ⟨?_, scheduleFlat_chunks zones queryTypes, chunk3_flatten zones,
    chunk3_length_le zones⟩
  rw [fetchBatchData_eq, hrun]
  show st.netlog ++ runNetAdds none 0 (scheduleFlat zones queryTypes) = _
  rw [runNetAdds_none]

/-- C4 witness: the amended theorem applied to a 4-zone, 2-query-type
batch. -/
theorem batch_schedule_order_witness :
    (fetchBatchData c4Fetcher none ["Z1", "Z2", "Z3", "Z4"] ["QA", "QB"] {}).2.2.netlog =
      ({} : ServiceState).netlog ++
        (scheduleFlat ["Z1", "Z2", "Z3", "Z4"] ["QA", "QB"]).map
          (fun p => cacheKey p.1 p.2) ∧
    scheduleFlat ["Z1", "Z2", "Z3", "Z4"] ["QA", "QB"] =
      ((chunk3 ["Z1", "Z2", "Z3", "Z4"]).map
        (fun g => ((["QA", "QB"] : List String).map (fun q => g.map (fun z => (z, q)))).flatten)).flatten ∧
    (chunk3 ["Z1", "Z2", "Z3", "Z4"]).flatten = ["Z1", "Z2", "Z3", "Z4"] ∧
    (∀ g ∈ chunk3 ["Z1", "Z2", "Z3", "Z4"], g.length ≤ 3) :=
  batch_schedule_order ["Z1", "Z2", "Z3", "Z4"] ["QA", "QB"] c4Fetcher {} rfl (by decide)

/-- Explicit shape of a cache-miss `fetchZoneData` call. -/
theorem fetchZoneData_miss (fetcher : Fetcher) (aborted : Bool) (zone queryType : String)
    (st : ServiceState)
    (hl : lookupCache st.cache (cacheKey zone queryType) = none) :
    fetchZoneData fetcher aborted zone queryType st =
      match fetchWithRetry (effectiveAttempt fetcher zone queryType aborted) 1 with
      | Except.ok rows =>
        (processResponse queryType zone rows,
         { cache := st.cache ++
             [(cacheKey zone queryType, processResponse queryType zone rows)],
           isFetching := st.isFetching,
           netlog := st.netlog ++ (if aborted then [] else [cacheKey zone queryType]),
           oklog := st.oklog ++ [cacheKey zone queryType] })
      | Except.error _ =>
        ([], { cache := st.cache, isFetching := st.isFetching,
               netlog := st.netlog ++ (if aborted then [] else [cacheKey zone queryType]),
               oklog := st.oklog }) := by
  unfold fetchZoneData
  simp only [hl]
  cases ho : fetchWithRetry (effectiveAttempt fetcher zone queryType aborted) 1 <;>
    cases aborted <;> simp [ho]

/-- A predicate preserved by every step of a fold is preserved by the
fold. -/
theorem foldl_preserves {α β : Type} (P : α → Prop) (f : α → β → α)
    (hf : ∀ a b, P a → P (f a b)) : ∀ (l : List β) (a : α), P a → P (l.foldl f a) := by
  intro l
  induction l with
  | nil => intro a h; exact h
  | cons x l ih => intro a h; exact ih _ (hf a x h)

/-- One `fetchZoneData` call preserves cache soundness: only the
success path writes the cache, and it records the success. -/
theorem fetchZoneData_sound (fetcher : Fetcher) (aborted : Bool) (zone queryType : String)
    (st : ServiceState) (h : CacheSound st) :
    CacheSound (fetchZoneData fetcher aborted zone queryType st).2 := by
  cases hl : lookupCache st.cache (cacheKey zone queryType) with
  | some v =>
    have heq : fetchZoneData fetcher aborted zone queryType st = (v, st) := by
      simp [fetchZoneData, hl]
    rw [heq]
    exact h
  | none =>
    rw [fetchZoneData_miss fetcher aborted zone queryType st hl]
    cases ho : fetchWithRetry (effectiveAttempt fetcher zone queryType aborted) 1 with
    | ok rows =>
      intro k hk
      simp only [List.map_append, List.mem_append, List.map_cons, List.map_nil,
        List.mem_cons, List.not_mem_nil, or_false] at hk
      rcases hk with hk | hk
      · exact List.mem_append_left _ (h k hk)
      · exact List.mem_append_right _ (by simp [hk])
    | error e =>
      intro k hk
      exact h k hk

/-- A whole batch preserves cache soundness. -/
theorem fetchBatchData_sound (fetcher : Fetcher) (cancelAt : Option Nat)
    (zones queryTypes : List String) (st : ServiceState) (h : CacheSound st) :
    CacheSound (fetchBatchData fetcher cancelAt zones queryTypes st).2.2 := by
  unfold fetchBatchData
  dsimp only
  have hp : ∀ (q : String) (acc : BatchAcc) (z : String),
      CacheSound acc.svc →
      CacheSound (processPartition fetcher cancelAt
        (zones.length * queryTypes.length) q acc z).svc := by
    intro q acc z h2
    exact fetchZoneData_sound fetcher _ z q acc.svc h2
  have hw : ∀ (g : List String) (acc : BatchAcc) (q : String),
      CacheSound acc.svc →
      CacheSound (runWave fetcher cancelAt (zones.length * queryTypes.length) q acc g).svc :=
    fun g acc q h2 =>
      foldl_preserves (fun a : BatchAcc => CacheSound a.svc) _
        (fun a z ha => hp q a z ha) g acc h2
  have hz : ∀ (acc : BatchAcc) (g : List String),
      CacheSound acc.svc →
      CacheSound (runZoneBatch fetcher cancelAt (zones.length * queryTypes.length)
        queryTypes acc g).svc :=
    fun acc g h2 =>
      foldl_preserves (fun a : BatchAcc => CacheSound a.svc) _
        (fun a q ha => hw g a q ha) queryTypes acc h2
  exact foldl_preserves (fun a : BatchAcc => CacheSound a.svc) _
    (fun a g ha => hz a g ha) (chunk3 zones) { svc := st } h

/-- Every public operation of the service preserves cache soundness. -/
theorem applyOp_sound (st : ServiceState) (op : ServiceOp) (h : CacheSound st) :
    CacheSound (applyOp st op) := by
  cases op with
  | fetchOne fetcher aborted zone queryType =>
    exact fetchZoneData_sound fetcher aborted zone queryType st h
  | batch fetcher cancelAt zones queryTypes =>
    exact fetchBatchData_sound fetcher cancelAt zones queryTypes st h
  | cancel => exact h
  | clear => intro k hk; simp [applyOp, clearCache] at hk

/-- C10: the cache is only ever written on a successful fetch. Every
sequence of service operations preserves the invariant that each cached
key has a recorded successful fetch, and a failed or aborted
`fetchZoneData` call leaves the cache unchanged, resolves with an empty
array, and (when not aborted) still launched a network fetch — so a
later call for the same key fetches again. -/
theorem cache_only_on_success :
    (∀ (st : ServiceState) (ops : List ServiceOp),
      CacheSound st → CacheSound (runOps ops st)) ∧
    (∀ (fetcher : Fetcher) (aborted : Bool) (zone queryType : String)
        (st : ServiceState) (e : String),
      lookupCache st.cache (cacheKey zone queryType) = none →
      fetchWithRetry (effectiveAttempt fetcher zone queryType aborted) 1 =
        Except.error e →
      (fetchZoneData fetcher aborted zone queryType st).2.cache = st.cache ∧
      (fetchZoneData fetcher aborted zone queryType st).2.oklog = st.oklog ∧
      (fetchZoneData fetcher aborted zone queryType st).1 = [] ∧
      (aborted = false →
        (fetchZoneData fetcher aborted zone queryType st).2.netlog =
          st.netlog ++ [cacheKey zone queryType])) := by
  constructor
  · intro st ops h
    exact foldl_preserves CacheSound applyOp (fun a b ha => applyOp_sound a b ha) ops st h
  · intro fetcher aborted zone queryType st e hl he
    rw [fetchZoneData_miss fetcher aborted zone queryType st hl, he]
    refine ⟨rfl, rfl, rfl, ?_⟩
    intro hab
    rw [hab]
    simp

/-- C10 witness: the invariant holds after a concrete operation
sequence from the empty state, and a concrete failing fetch leaves no
cache entry while logging its network attempt. -/
theorem cache_only_on_success_witness :
    CacheSound (runOps [ServiceOp.clear,
      ServiceOp.fetchOne failFetcher false "NR" "Q"] {}) ∧
    ((fetchZoneData failFetcher false "NR" "Q" {}).2.cache =
        ({} : ServiceState).cache ∧
     (fetchZoneData failFetcher false "NR" "Q" {}).2.oklog =
        ({} : ServiceState).oklog ∧
     (fetchZoneData failFetcher false "NR" "Q" {}).1 = [] ∧
     (false = false →
       (fetchZoneData failFetcher false "NR" "Q" {}).2.netlog =
         ({} : ServiceState).netlog ++ [cacheKey "NR" "Q"])) :=
  ⟨cache_only_on_success.1 {}
      [ServiceOp.clear, ServiceOp.fetchOne failFetcher false "NR" "Q"]
      (fun k hk => by simp at hk),
   cache_only_on_success.2 failFetcher false "NR" "Q" {} "boom" rfl (by rfl)⟩

/-- C9: the top-level fetch operations never report failure due to
partition errors: a cache-miss `fetchZoneData` whose retried fetch
settles to any error (retry exhaustion or abort) resolves with an empty
array, and `fetchSelectedZones` / `fetchAllData` always resolve with
success true and an always-present (possibly empty) records array, for
every fetch environment, cancellation point and zone selection. -/
theorem fetch_never_fails (fetcher : Fetcher) (cancelAt : Option Nat)
    (zones queryTypes : List String) (st : ServiceState) (aborted : Bool)
    (zone queryType : String) :
    (fetchSelectedZones fetcher cancelAt zones queryTypes st).1.success = true ∧
    (fetchSelectedZones fetcher cancelAt zones queryTypes st).1.data =
      (fetchBatchData fetcher cancelAt zones queryTypes st).1 ∧
    (fetchSelectedZones fetcher cancelAt zones queryTypes st).1.errorMessage = none ∧
    (fetchAllData fetcher cancelAt st).1.success = true ∧
    (∀ e, lookupCache st.cache (cacheKey zone queryType) = none →
      fetchWithRetry (effectiveAttempt fetcher zone queryType aborted) 1 =
        Except.error e →
      (fetchZoneData fetcher aborted zone queryType st).1 = []) := by
  refine ⟨rfl, rfl, rfl, rfl, ?_⟩
  intro e hl he
  rw [fetchZoneData_miss fetcher aborted zone queryType st hl, he]

/-- C9 witness: the theorem applied to an always-failing fetch
environment. -/
theorem fetch_never_fails_witness :
    (fetchSelectedZones failFetcher none ["NR"] ["Q"] {}).1.success = true ∧
    (fetchZoneData failFetcher false "NR" "Q" {}).1 = [] :=
  ⟨(fetch_never_fails failFetcher none ["NR"] ["Q"] {} false "NR" "Q").1,
   (fetch_never_fails failFetcher none ["NR"] ["Q"] {} false "NR" "Q").2.2.2.2 "boom"
     rfl (by rfl)⟩

/-- C3 counterexample: after fetching partition (NR, Q1), the caller
empties the array it was handed; the second call is a cache hit that
launches no new fetch and returns the same reference — which now
dereferences to the mutated empty array, not the previously fetched
record list. The returned list therefore is not reference-safe against
caller mutation. -/
theorem cache_hit_not_reference_safe :
    heapGet c3First.2.heap c3First.1 =
      [processRow "Q1" "NR" { csnr := some "NR-Q1" }] ∧
    c3Second.1 = c3First.1 ∧
    c3Second.2.netlog = c3First.2.netlog ∧
    heapGet c3Second.2.heap c3Second.1 = [] ∧
    heapGet c3Second.2.heap c3Second.1 ≠
      [processRow "Q1" "NR" { csnr := some "NR-Q1" }] := by decide

/-- C3 amended: a cache hit returns the previously stored value without
a second network invocation and without touching the state — but at the
reference level it returns the cached array itself (no copy, no
freeze), so caller mutation through the returned reference is visible
to later hits. -/
theorem cache_hit_no_refetch (fetcher : Fetcher) (aborted : Bool)
    (zone queryType : String) (stv : ServiceState) (v : List Record)
    (str : RefState) (addr : Nat)
    (hv : lookupCache stv.cache (cacheKey zone queryType) = some v)
    (hr : lookupRef str.cache (cacheKey zone queryType) = some addr) :
    fetchZoneData fetcher aborted zone queryType stv = (v, stv) ∧
    fetchZoneDataRef fetcher str zone queryType = (addr, str) := by
  constructor
  · simp [fetchZoneData, hv]
  · simp [fetchZoneDataRef, hr]

/-- C3 witness: the amended theorem applied to concrete prepopulated
caches. -/
theorem cache_hit_no_refetch_witness :
    fetchZoneData c3Fetcher false "NR" "Q1" { cache := [("NR-Q1", [])] } =
      ([], { cache := [("NR-Q1", [])] }) ∧
    fetchZoneDataRef c3Fetcher { cache := [("NR-Q1", 7)] } "NR" "Q1" =
      (7, { cache := [("NR-Q1", 7)] }) :=
  cache_hit_no_refetch c3Fetcher false "NR" "Q1" { cache := [("NR-Q1", [])] } []
    { cache := [("NR-Q1", 7)] } 7 (by rfl) (by rfl)

end Railways
